import Mathlib

/-!
Shallow embedding of the `connection_pool` Go package.

The repository contains two iterations of the same file
(`pkg/connection_pool/connection_pool.go`, and an unnamed iteration —
`part_000` below — whose generic parameter is `io.Closer` instead of
`net.Conn`).  Both iterations are embedded here; definitions from the
named file carry the suffix `Go`, definitions from the unnamed iteration
carry the suffix `P0`.

Modelling decisions, shared by both iterations:

* A Go interface value of the pool's connection type `T` is modelled as
  `Option Nat`: `none` is a nil interface value (`var zero T`), `some id`
  is a concrete connection identified by `id`.
* Go `int` fields (`MaxNumConnections`, `numActiveConnections`) are
  modelled as `Int` — the active-connection counter can go negative, so
  `Nat` would be unfaithful.
* `container/list.List` holds its elements in order; the Go list's
  `Front` is the head of the Lean list, `PushBack` appends, `PushFront`
  conses.  The list stores `any`; since only the pool's own `Get`/`Put`
  insert values, every stored value has the pool's connection type, so the
  defensive `element.(T)` type assertion in `Get` cannot fail and is not
  modelled (its failure branch is dead for values the pool itself stored).
* The calls are modelled sequentially, one critical section at a time
  (the single mutex serialises all operations).  When `Get`'s wait
  predicate holds and no other thread is active, `cond.Wait` never
  returns; this is the `blocked` outcome.
* The caller-supplied factory `MakeConnection` is modelled by passing its
  outcome for the (single possible) invocation as an argument to `Get`.
* `connection.Close()` outcomes during `Close` are modelled by a function
  from connection ids to `Option Nat` (`none` = success, `some e` =
  failure with error id `e`).  In `Put`'s error branch the close outcome
  only affects logging, never pool state, so it is not a parameter there.
-/

namespace ConnectionPool

/-- A Go interface value holding a connection: `none` is a nil interface
value, `some id` a concrete connection with identity `id`. -/
abbrev GoConn := Option Nat

/-- Error values that the pool operations can produce.  `makeConnection e`
is the wrapped factory error (`fmt.Errorf("make connection: %w", err)`),
`closeError c e` the wrapped close failure for connection `c`
(`fmt.Errorf("connection close: %w", err)`), `nilConnection` is
`connectionPoolErrors.ErrNilConnection`, and `conversionNotOk` is
`motmedelErrors.ErrConversionNotOk`. -/
inductive PoolErr where
  | conversionNotOk : PoolErr
  | nilConnection : PoolErr
  | makeConnection (e : Nat) : PoolErr
  | closeError (c : Nat) (e : Nat) : PoolErr
deriving DecidableEq

/-- The mutable state of a `ConnectionPool[T]`: the `MaxNumConnections`
field, the `numActiveConnections` counter and the `connections` list
(head = front).  The mutex and condition variable have no sequential
state; the `MakeConnection` field is passed to `Get` as an argument. -/
structure PoolState where
  maxNumConnections : Int
  numActiveConnections : Int
  connections : List GoConn
deriving DecidableEq

/-- `New` builds a pool with `MaxNumConnections: 5`, a zero counter and an
empty list; `mkPool cap` additionally models the owner setting
`MaxNumConnections := cap` before use. -/
def mkPool (cap : Int) : PoolState :=
  { maxNumConnections := cap, numActiveConnections := 0, connections := [] }

/-- The pool produced by `New` with the default capacity 5. -/
def New : PoolState := mkPool 5

/-- Outcome of one invocation of the caller-supplied factory
`MakeConnection`: either a connection value (possibly a nil interface)
and a nil error, or a non-nil error `e`. -/
inductive FactoryOutcome where
  | ok (c : GoConn) : FactoryOutcome
  | err (e : Nat) : FactoryOutcome
deriving DecidableEq

/-- Result of a `Get` call: `blocked` when the wait predicate
(`connections.Len() == 0 && numActiveConnections >= MaxNumConnections`)
holds and nothing ever wakes the caller; otherwise `ret conn err s` is the
returned pair `(conn, err)` together with the pool state `s` after the
call (Go's `(T, error)` return, with `conn = none` for `var zero T`). -/
inductive GetResult where
  | blocked : GetResult
  | ret (conn : GoConn) (e : Option PoolErr) (s : PoolState) : GetResult
deriving DecidableEq

/-- `Get` of the unnamed iteration (`part_000`): if the list is non-empty,
remove the front element, error with `ErrNilConnection` if it is nil,
otherwise return it; if the list is empty, call the factory — on error
return the wrapped error with no state change, on a nil result return
`ErrNilConnection` with no state change, and on success increment
`numActiveConnections` and return the connection (it is not queued). -/
def getP0 (pool : PoolState) (factory : FactoryOutcome) : GetResult :=
  if pool.connections.length = 0 ∧ pool.maxNumConnections ≤ pool.numActiveConnections then
    .blocked
  else
    match pool.connections with
    | front :: rest =>
      let p1 := { pool with connections := rest }
      match front with
      | none => .ret none (some .nilConnection) p1
      | some c => .ret (some c) none p1
    | [] =>
      match factory with
      | .err e => .ret none (some (.makeConnection e)) pool
      | .ok none => .ret none (some .nilConnection) pool
      | .ok (some c) =>
        .ret (some c) none
          { pool with numActiveConnections := pool.numActiveConnections + 1 }

/-- `Get` of `pkg/connection_pool/connection_pool.go`: identical to
`getP0` except that on factory success the new connection is also pushed
onto the back of the list (`pool.connections.PushBack(connection)`)
before `numActiveConnections++` and the return. -/
def getGo (pool : PoolState) (factory : FactoryOutcome) : GetResult :=
  if pool.connections.length = 0 ∧ pool.maxNumConnections ≤ pool.numActiveConnections then
    .blocked
  else
    match pool.connections with
    | front :: rest =>
      let p1 := { pool with connections := rest }
      match front with
      | none => .ret none (some .nilConnection) p1
      | some c => .ret (some c) none p1
    | [] =>
      match factory with
      | .err e => .ret none (some (.makeConnection e)) pool
      | .ok none => .ret none (some .nilConnection) pool
      | .ok (some c) =>
        .ret (some c) none
          { pool with
              connections := pool.connections ++ [some c],
              numActiveConnections := pool.numActiveConnections + 1 }

/-- `Put` of the unnamed iteration: a nil connection is a no-op; with a
non-nil usage error the connection is closed (outcome only logged) and
`numActiveConnections--`; with a nil usage error the connection is pushed
onto the front of the list (`PushFront`).  `condition.Signal()` has no
sequential state effect. -/
def putP0 (pool : PoolState) (connection : GoConn) (usageErr : Option Nat) : PoolState :=
  match connection with
  | none => pool
  | some _ =>
    match usageErr with
    | some _ =>
      { pool with numActiveConnections := pool.numActiveConnections - 1 }
    | none => { pool with connections := connection :: pool.connections }

/-- `Put` of `pkg/connection_pool/connection_pool.go`: identical to
`putP0` except that an error-free connection is pushed onto the back of
the list (`PushBack`). -/
def putGo (pool : PoolState) (connection : GoConn) (usageErr : Option Nat) : PoolState :=
  match connection with
  | none => pool
  | some _ =>
    match usageErr with
    | some _ =>
      { pool with numActiveConnections := pool.numActiveConnections - 1 }
    | none => { pool with connections := pool.connections ++ [connection] }

/-- The drain loop of the unnamed iteration's `Close`, walking the list
front to back and removing each element before closing it.  `closeFn`
gives each `connection.Close()` outcome.  Returns the ids `Close()` was
invoked on (in order) and, when a close failed, the failing id, the error
and the elements still in the list at the early `return` (every element
up to and including the failing one was already removed).  Nil elements
are removed without being closed (`if connection != nil`). -/
def closeLoopP0 : List GoConn → (Nat → Option Nat) → List Nat × Option (Nat × Nat × List GoConn)
  | [], _ => ([], none)
  | none :: rest, closeFn => closeLoopP0 rest closeFn
  | some c :: rest, closeFn =>
    match closeFn c with
    | some e => ([c], some (c, e, rest))
    | none =>
      let r := closeLoopP0 rest closeFn
      (c :: r.1, r.2)

/-- `Close` of the unnamed iteration: with an empty list return nil with
no change; otherwise run the drain loop — on a close failure return the
wrapped error, with the counter untouched and the unprocessed elements
still in the list; if every close succeeds, install a fresh list and set
`numActiveConnections = 0`. -/
def closeP0 (pool : PoolState) (closeFn : Nat → Option Nat) : PoolState × Option PoolErr :=
  if pool.connections.length = 0 then (pool, none)
  else
    match (closeLoopP0 pool.connections closeFn).2 with
    | some (c, e, remaining) =>
      ({ pool with connections := remaining }, some (.closeError c e))
    | none =>
      ({ pool with connections := [], numActiveConnections := 0 }, none)

/-- The loop of `Close` in `pkg/connection_pool/connection_pool.go`,
which iterates the list without removing anything: it returns
`ErrNilConnection` on a nil element, and on the first close failure the
wrapped error, closing nothing further.  Returns the ids closed (in
order) and the error, if any. -/
def closeLoopGo : List GoConn → (Nat → Option Nat) → List Nat × Option PoolErr
  | [], _ => ([], none)
  | none :: _, _ => ([], some .nilConnection)
  | some c :: rest, closeFn =>
    match closeFn c with
    | some e => ([c], some (.closeError c e))
    | none =>
      let r := closeLoopGo rest closeFn
      (c :: r.1, r.2)

/-- `Close` of `pkg/connection_pool/connection_pool.go`: with an empty
(or nil) list return nil; otherwise run the loop.  The pool state is
never mutated — no element is removed, the list is not replaced and
`numActiveConnections` is not reset. -/
def closeGo (pool : PoolState) (closeFn : Nat → Option Nat) : PoolState × Option PoolErr :=
  if pool.connections.length = 0 then (pool, none)
  else (pool, (closeLoopGo pool.connections closeFn).2)

/-- `Len` returns `pool.connections.Len()`, the idle-list length (both
iterations are identical). -/
def Len (pool : PoolState) : Nat := pool.connections.length

/-- One pool operation observed at a quiescent point, for either
iteration: a `Get` that actually returned (a blocked `Get` changes no
state), a `Put` with arbitrary caller-chosen arguments, or a `Close` with
arbitrary close outcomes. -/
inductive Step : PoolState → PoolState → Prop where
  | getRetP0 (s : PoolState) (f : FactoryOutcome) (c : GoConn) (e : Option PoolErr)
      (s' : PoolState) (h : getP0 s f = .ret c e s') : Step s s'
  | getRetGo (s : PoolState) (f : FactoryOutcome) (c : GoConn) (e : Option PoolErr)
      (s' : PoolState) (h : getGo s f = .ret c e s') : Step s s'
  | putStepP0 (s : PoolState) (c : GoConn) (e : Option Nat) : Step s (putP0 s c e)
  | putStepGo (s : PoolState) (c : GoConn) (e : Option Nat) : Step s (putGo s c e)
  | closeStepP0 (s : PoolState) (f : Nat → Option Nat) : Step s (closeP0 s f).1
  | closeStepGo (s : PoolState) (f : Nat → Option Nat) : Step s (closeGo s f).1

/-- States reachable from a freshly constructed pool whose capacity was
set to `cap` before use, by any sequence of operations. -/
def Reachable (cap : Int) (s : PoolState) : Prop :=
  Relation.ReflTransGen Step (mkPool cap) s

theorem getP0_ret_bound {s : PoolState} {f : FactoryOutcome} {c : GoConn}
    {e : Option PoolErr} {s' : PoolState} (h : getP0 s f = .ret c e s') :
    s'.maxNumConnections = s.maxNumConnections ∧
    (s.numActiveConnections ≤ s.maxNumConnections →
      s'.numActiveConnections ≤ s.maxNumConnections) := by
  unfold getP0 at h
  split at h
  · exact GetResult.noConfusion h
  next hg =>
    split at h
    next front rest heq =>
      split at h <;>
        · obtain ⟨h1, h2, h3⟩ := GetResult.ret.injEq .. ▸ h
          subst h3
          exact ⟨rfl, fun hle => hle⟩
    next heq =>
      split at h
      · obtain ⟨h1, h2, h3⟩ := GetResult.ret.injEq .. ▸ h
        subst h3
        exact ⟨rfl, fun hle => hle⟩
      · obtain ⟨h1, h2, h3⟩ := GetResult.ret.injEq .. ▸ h
        subst h3
        exact ⟨rfl, fun hle => hle⟩
      · obtain ⟨h1, h2, h3⟩ := GetResult.ret.injEq .. ▸ h
        subst h3
        refine ⟨rfl, fun hle => ?_⟩
        have hlen : s.connections.length = 0 := by simp [heq]
        have : ¬ s.maxNumConnections ≤ s.numActiveConnections := fun hc => hg ⟨hlen, hc⟩
        simp only [PoolState.mk.injEq]
        omega

theorem getGo_ret_bound {s : PoolState} {f : FactoryOutcome} {c : GoConn}
    {e : Option PoolErr} {s' : PoolState} (h : getGo s f = .ret c e s') :
    s'.maxNumConnections = s.maxNumConnections ∧
    (s.numActiveConnections ≤ s.maxNumConnections →
      s'.numActiveConnections ≤ s.maxNumConnections) := by
  unfold getGo at h
  split at h
  · exact GetResult.noConfusion h
  next hg =>
    split at h
    next front rest heq =>
      split at h <;>
        · obtain ⟨h1, h2, h3⟩ := GetResult.ret.injEq .. ▸ h
          subst h3
          exact ⟨rfl, fun hle => hle⟩
    next heq =>
      split at h
      · obtain ⟨h1, h2, h3⟩ := GetResult.ret.injEq .. ▸ h
        subst h3
        exact ⟨rfl, fun hle => hle⟩
      · obtain ⟨h1, h2, h3⟩ := GetResult.ret.injEq .. ▸ h
        subst h3
        exact ⟨rfl, fun hle => hle⟩
      · obtain ⟨h1, h2, h3⟩ := GetResult.ret.injEq .. ▸ h
        subst h3
        refine ⟨rfl, fun hle => ?_⟩
        have hlen : s.connections.length = 0 := by simp [heq]
        have : ¬ s.maxNumConnections ≤ s.numActiveConnections := fun hc => hg ⟨hlen, hc⟩
        simp only [PoolState.mk.injEq]
        omega

theorem putP0_bound (s : PoolState) (c : GoConn) (e : Option Nat) :
    (putP0 s c e).maxNumConnections = s.maxNumConnections ∧
    (putP0 s c e).numActiveConnections ≤ s.numActiveConnections := by
  unfold putP0
  split
  · exact ⟨rfl, le_refl _⟩
  · split
    · exact ⟨rfl, by simp⟩
    · exact ⟨rfl, le_refl _⟩

theorem putGo_bound (s : PoolState) (c : GoConn) (e : Option Nat) :
    (putGo s c e).maxNumConnections = s.maxNumConnections ∧
    (putGo s c e).numActiveConnections ≤ s.numActiveConnections := by
  unfold putGo
  split
  · exact ⟨rfl, le_refl _⟩
  · split
    · exact ⟨rfl, by simp⟩
    · exact ⟨rfl, le_refl _⟩

theorem closeP0_bound (s : PoolState) (f : Nat → Option Nat) :
    (closeP0 s f).1.maxNumConnections = s.maxNumConnections ∧
    ((closeP0 s f).1.numActiveConnections = s.numActiveConnections ∨
      (closeP0 s f).1.numActiveConnections = 0) := by
  unfold closeP0
  split
  · exact ⟨rfl, Or.inl rfl⟩
  · split
    · exact ⟨rfl, Or.inl rfl⟩
    · exact ⟨rfl, Or.inr rfl⟩

theorem closeGo_state_eq (s : PoolState) (f : Nat → Option Nat) :
    (closeGo s f).1 = s := by
  unfold closeGo
  split <;> rfl

theorem step_preserves_inv {cap : Int} (hcap : 0 ≤ cap) {s s' : PoolState}
    (hs : Step s s') (h1 : s.maxNumConnections = cap)
    (h2 : s.numActiveConnections ≤ cap) :
    s'.maxNumConnections = cap ∧ s'.numActiveConnections ≤ cap := by
  cases hs with
  | getRetP0 f c e s' h =>
    obtain ⟨hm, ha⟩ := getP0_ret_bound h
    exact ⟨hm.trans h1, h1 ▸ ha (h1 ▸ h2)⟩
  | getRetGo f c e s' h =>
    obtain ⟨hm, ha⟩ := getGo_ret_bound h
    exact ⟨hm.trans h1, h1 ▸ ha (h1 ▸ h2)⟩
  | putStepP0 c e =>
    obtain ⟨hm, ha⟩ := putP0_bound s c e
    exact ⟨hm.trans h1, le_trans ha h2⟩
  | putStepGo c e =>
    obtain ⟨hm, ha⟩ := putGo_bound s c e
    exact ⟨hm.trans h1, le_trans ha h2⟩
  | closeStepP0 f =>
    obtain ⟨hm, ha⟩ := closeP0_bound s f
    refine ⟨hm.trans h1, ?_⟩
    cases ha with
    | inl hh => omega
    | inr hh => omega
  | closeStepGo f =>
    rw [closeGo_state_eq]
    exact ⟨h1, h2⟩

theorem reachable_inv {cap : Int} (hcap : 0 ≤ cap) {s : PoolState}
    (h : Reachable cap s) :
    s.maxNumConnections = cap ∧ s.numActiveConnections ≤ cap := by
  induction h with
  | refl => exact ⟨rfl, hcap⟩
  | tail _ hstep ih => exact step_preserves_inv hcap hstep ih.1 ih.2

theorem getP0_front_removal {s : PoolState} {c : Nat} {rest : List GoConn}
    (f : FactoryOutcome) (h : s.connections = some c :: rest) :
    getP0 s f = .ret (some c) none { s with connections := rest } := by
  unfold getP0
  rw [h]
  simp

theorem getGo_front_removal {s : PoolState} {c : Nat} {rest : List GoConn}
    (f : FactoryOutcome) (h : s.connections = some c :: rest) :
    getGo s f = .ret (some c) none { s with connections := rest } := by
  unfold getGo
  rw [h]
  simp

theorem closeLoopP0_failure_split (queue : List GoConn) (closeFn : Nat → Option Nat) :
    ∀ (c e : Nat) (remaining : List GoConn),
      (closeLoopP0 queue closeFn).2 = some (c, e, remaining) →
      closeFn c = some e ∧
      ∃ before, queue = before ++ some c :: remaining ∧
        (∀ k, some k ∈ before → closeFn k = none) ∧
        (closeLoopP0 queue closeFn).1 = before.filterMap (fun x => x) ++ [c] := by
  induction queue with
  | nil =>
    intro c e remaining h
    simp [closeLoopP0] at h
  | cons front rest ih =>
    intro c e remaining h
    match front with
    | none =>
      simp only [closeLoopP0] at h
      obtain ⟨hc, before, hq, hbefore, hcl⟩ := ih c e remaining h
      refine ⟨hc, none :: before, by simp [hq], ?_, ?_⟩
      · intro k hk
        simp only [List.mem_cons] at hk
        cases hk with
        | inl hk => exact Option.noConfusion hk
        | inr hk => exact hbefore k hk
      · simpa [closeLoopP0] using hcl
    | some c' =>
      cases hcf : closeFn c' with
      | some e' =>
        simp only [closeLoopP0, hcf, Option.some.injEq, Prod.mk.injEq] at h
        obtain ⟨hc1, hc2, hc3⟩ := h
        subst hc1; subst hc2; subst hc3
        exact ⟨hcf, [], rfl, by simp, by simp [closeLoopP0, hcf]⟩
      | none =>
        simp only [closeLoopP0, hcf] at h
        obtain ⟨hc, before, hq, hbefore, hcl⟩ := ih c e remaining h
        refine ⟨hc, some c' :: before, by simp [hq], ?_, ?_⟩
        · intro k hk
          simp only [List.mem_cons, Option.some.injEq] at hk
          cases hk with
          | inl hk => exact hk ▸ hcf
          | inr hk => exact hbefore k hk
        · simp [closeLoopP0, hcf, hcl]

/-- Close outcome used in the concrete `Close` traces: closing connection
`0` fails with error `7`, every other close succeeds. -/
def failOnZero : Nat → Option Nat := fun k => if k = 0 then some 7 else none

/-- Claim C1: with an empty idle list, a live counter below the capacity
ceiling and a factory success, `Get` increments the counter by one and
returns the new connection without queueing it.  The unnamed iteration's
`Get` behaves exactly so, but the `Get` of
`pkg/connection_pool/connection_pool.go` additionally pushes the new
connection onto the idle list before returning it, so on a fresh pool the
list after the call is `[some 0]`, not `[]`. -/
theorem c1_fresh_connection_also_enqueued_by_getGo :
    getP0 (mkPool 5) (.ok (some 0)) =
      .ret (some 0) none
        { maxNumConnections := 5, numActiveConnections := 1, connections := [] } ∧
    getGo (mkPool 5) (.ok (some 0)) =
      .ret (some 0) none
        { maxNumConnections := 5, numActiveConnections := 1,
          connections := [some 0] } := by
  exact ⟨by decide, by decide⟩

/-- Claim C2: in every state reachable from a freshly constructed pool
(capacity ceiling `cap` fixed before use) by any sequence of `Get`, `Put`
and `Close` operations of either iteration, the live-connection counter
is at most the capacity ceiling. -/
theorem c2_reachable_live_counter_le_capacity (cap : Int) (hcap : 0 ≤ cap)
    (s : PoolState) (h : Reachable cap s) : s.numActiveConnections ≤ cap :=
  (reachable_inv hcap h).2

theorem c2_reachable_live_counter_le_capacity_witness :
    (putP0 (mkPool 5) (some 3) none).numActiveConnections ≤ 5 :=
  c2_reachable_live_counter_le_capacity 5 (by decide) _
    (Relation.ReflTransGen.single (Step.putStepP0 (mkPool 5) (some 3) none))

/-- Claim C3: no handle should be simultaneously checked out by a caller
and present in the idle queue.  The `Get` of
`pkg/connection_pool/connection_pool.go` violates this on a fresh pool
with a single successful `Get`: the returned (checked-out) handle `some 0`
is also a member of the idle list after the call. -/
theorem c3_getGo_double_books_fresh_handle :
    getGo (mkPool 5) (.ok (some 0)) =
      .ret (some 0) none
        { maxNumConnections := 5, numActiveConnections := 1,
          connections := [some 0] } ∧
    some 0 ∈ ({ maxNumConnections := 5, numActiveConnections := 1,
                connections := [some 0] } : PoolState).connections := by
  exact ⟨by decide, by decide⟩

/-- Claim C4 counterexample: with idle list `[some 0, some 1]` and the
close of connection `0` failing, both iterations stop at the first
failure: `Close()` is invoked only on connection `0` (the list of closed
ids is `[0]`, and `1` is not in it), and the returned error reports only
that single failure — connection `1` is never closed and no aggregation
happens. -/
theorem c4_close_does_not_close_rest_after_failure :
    closeP0 { maxNumConnections := 5, numActiveConnections := 2,
              connections := [some 0, some 1] } failOnZero =
      ({ maxNumConnections := 5, numActiveConnections := 2,
         connections := [some 1] }, some (.closeError 0 7)) ∧
    (closeLoopP0 [some 0, some 1] failOnZero).1 = [0] ∧
    1 ∉ (closeLoopP0 [some 0, some 1] failOnZero).1 ∧
    (closeLoopGo [some 0, some 1] failOnZero).1 = [0] ∧
    (closeLoopGo [some 0, some 1] failOnZero).2 = some (.closeError 0 7) := by
  refine ⟨by decide, by decide, by decide, by decide, by decide⟩

/-- Claim C4 as amended: `Close` aborts on the first close failure rather
than aggregating.  In the unnamed iteration, when the drain loop reports a
failure `(c, e, remaining)`, the list splits as a successfully closed
prefix (whose non-nil members all close without error), then the failing
connection `c` (whose close returned `e`), then `remaining`, which is
left unclosed; the ids actually closed are exactly that prefix plus `c`.
In `pkg/connection_pool/connection_pool.go`, `Close` never mutates the
pool state at all. -/
theorem c4_amended_close_aborts_on_first_failure :
    (∀ (queue : List GoConn) (closeFn : Nat → Option Nat) (c e : Nat)
        (remaining : List GoConn),
        (closeLoopP0 queue closeFn).2 = some (c, e, remaining) →
        closeFn c = some e ∧
        ∃ before, queue = before ++ some c :: remaining ∧
          (∀ k, some k ∈ before → closeFn k = none) ∧
          (closeLoopP0 queue closeFn).1 = before.filterMap (fun x => x) ++ [c]) ∧
    (∀ (s : PoolState) (closeFn : Nat → Option Nat), (closeGo s closeFn).1 = s) :=
  ⟨fun queue closeFn c e remaining h =>
      closeLoopP0_failure_split queue closeFn c e remaining h,
    fun s closeFn => closeGo_state_eq s closeFn⟩

theorem c4_amended_close_aborts_on_first_failure_witness :
    (failOnZero 0 = some 7 ∧
      ∃ before, ([some 0, some 1] : List GoConn) = before ++ some 0 :: [some 1] ∧
        (∀ k, some k ∈ before → failOnZero k = none) ∧
        (closeLoopP0 [some 0, some 1] failOnZero).1 =
          before.filterMap (fun x => x) ++ [0]) ∧
    (closeGo (mkPool 5) failOnZero).1 = mkPool 5 :=
  ⟨c4_amended_close_aborts_on_first_failure.1 [some 0, some 1] failOnZero 0 7
      [some 1] (by decide),
    c4_amended_close_aborts_on_first_failure.2 (mkPool 5) failOnZero⟩

/-- Claim C5: after `Close`, the live counter should be zero and the idle
list empty.  In `pkg/connection_pool/connection_pool.go`, `Close` never
mutates the pool: on the state reached by a single successful `Get` from a
fresh pool, `Close` succeeds (all closes succeed) yet `Len` is still `1`
and the counter still `1`.  In the unnamed iteration, when a close fails
the early return leaves the unprocessed elements in the list and the
counter untouched (`Len` is `1`, counter `2`). -/
theorem c5_close_leaves_nonzero_state :
    getGo (mkPool 5) (.ok (some 0)) =
      .ret (some 0) none
        { maxNumConnections := 5, numActiveConnections := 1,
          connections := [some 0] } ∧
    closeGo { maxNumConnections := 5, numActiveConnections := 1,
              connections := [some 0] } (fun _ => none) =
      ({ maxNumConnections := 5, numActiveConnections := 1,
         connections := [some 0] }, none) ∧
    Len (closeGo { maxNumConnections := 5, numActiveConnections := 1,
                   connections := [some 0] } (fun _ => none)).1 = 1 ∧
    closeP0 { maxNumConnections := 5, numActiveConnections := 2,
              connections := [some 0, some 1] } failOnZero =
      ({ maxNumConnections := 5, numActiveConnections := 2,
         connections := [some 1] }, some (.closeError 0 7)) ∧
    Len ({ maxNumConnections := 5, numActiveConnections := 2,
           connections := [some 1] } : PoolState) = 1 := by
  refine ⟨by decide, by decide, by decide, by decide, by decide⟩

/-- Claim C6: after `Put` with a non-nil connection and a non-nil usage
error, the connection should never be returned by a later `Get`.  In
`pkg/connection_pool/connection_pool.go` this fails: a fresh `Get` leaves
the new connection in the idle list as well, so after releasing it with an
error (which decrements the counter by one and adds nothing) a later `Get`
hands the very same connection out again from the idle list. -/
theorem c6_error_released_connection_returned_again :
    getGo (mkPool 5) (.ok (some 0)) =
      .ret (some 0) none
        { maxNumConnections := 5, numActiveConnections := 1,
          connections := [some 0] } ∧
    putGo { maxNumConnections := 5, numActiveConnections := 1,
            connections := [some 0] } (some 0) (some 3) =
      { maxNumConnections := 5, numActiveConnections := 0,
        connections := [some 0] } ∧
    getGo { maxNumConnections := 5, numActiveConnections := 0,
            connections := [some 0] } (.err 9) =
      .ret (some 0) none
        { maxNumConnections := 5, numActiveConnections := 0,
          connections := [] } := by
  refine ⟨by decide, by decide, by decide⟩

/-- Claim C7 counterexample: reuse in the unnamed iteration is LIFO, not
FIFO.  Acquire connections `10` and `11` from a fresh pool, release both
error-free in that order; the idle list is then `[some 11, some 10]`
(`PushFront`), and the next `Get` returns `11`, the most recently
released connection, not the oldest one `10`. -/
theorem c7_put_get_reuse_is_lifo_in_part0 :
    getP0 (mkPool 5) (.ok (some 10)) =
      .ret (some 10) none
        { maxNumConnections := 5, numActiveConnections := 1, connections := [] } ∧
    getP0 { maxNumConnections := 5, numActiveConnections := 1, connections := [] }
        (.ok (some 11)) =
      .ret (some 11) none
        { maxNumConnections := 5, numActiveConnections := 2, connections := [] } ∧
    putP0 { maxNumConnections := 5, numActiveConnections := 2, connections := [] }
        (some 10) none =
      { maxNumConnections := 5, numActiveConnections := 2,
        connections := [some 10] } ∧
    putP0 { maxNumConnections := 5, numActiveConnections := 2,
            connections := [some 10] } (some 11) none =
      { maxNumConnections := 5, numActiveConnections := 2,
        connections := [some 11, some 10] } ∧
    getP0 { maxNumConnections := 5, numActiveConnections := 2,
            connections := [some 11, some 10] } (.err 9) =
      .ret (some 11) none
        { maxNumConnections := 5, numActiveConnections := 2,
          connections := [some 10] } ∧
    (11 : Nat) ≠ 10 := by
  refine ⟨by decide, by decide, by decide, by decide, by decide, by decide⟩

/-- Claim C7 as amended: whenever the idle list is non-empty, `Get` (both
iterations) removes and returns the front element.  The `Put` of
`pkg/connection_pool/connection_pool.go` appends error-free releases to
the back of the list, so its reuse order is FIFO; the unnamed iteration's
`Put` pushes them onto the front, so its reuse order is LIFO (most
recently released first). -/
theorem c7_amended_front_removal_and_push_direction :
    (∀ (s : PoolState) (c : Nat) (rest : List GoConn) (f : FactoryOutcome),
        s.connections = some c :: rest →
        getGo s f = .ret (some c) none { s with connections := rest } ∧
        getP0 s f = .ret (some c) none { s with connections := rest }) ∧
    (∀ (s : PoolState) (c : Nat),
        (putGo s (some c) none).connections = s.connections ++ [some c]) ∧
    (∀ (s : PoolState) (c : Nat),
        (putP0 s (some c) none).connections = some c :: s.connections) :=
  ⟨fun _ _ _ f h => ⟨getGo_front_removal f h, getP0_front_removal f h⟩,
    fun _ _ => rfl, fun _ _ => rfl⟩

theorem c7_amended_front_removal_and_push_direction_witness :
    (getGo { maxNumConnections := 5, numActiveConnections := 2,
             connections := [some 11, some 10] } (.err 9) =
      .ret (some 11) none
        { maxNumConnections := 5, numActiveConnections := 2,
          connections := [some 10] } ∧
     getP0 { maxNumConnections := 5, numActiveConnections := 2,
             connections := [some 11, some 10] } (.err 9) =
      .ret (some 11) none
        { maxNumConnections := 5, numActiveConnections := 2,
          connections := [some 10] }) ∧
    (putGo (mkPool 5) (some 4) none).connections = [some 4] ∧
    (putP0 (mkPool 5) (some 4) none).connections = [some 4] :=
  ⟨c7_amended_front_removal_and_push_direction.1
      { maxNumConnections := 5, numActiveConnections := 2,
        connections := [some 11, some 10] } 11 [some 10] (.err 9) rfl,
    c7_amended_front_removal_and_push_direction.2.1 (mkPool 5) 4,
    c7_amended_front_removal_and_push_direction.2.2 (mkPool 5) 4⟩

/-- Claim C8: a `Get` that finds the idle list empty, is below capacity
and gets a factory error returns the wrapped error (`make connection:`)
and leaves the pool state exactly as it was, in both iterations. -/
theorem c8_factory_failure_wrapped_error_no_state_change (s : PoolState) (e : Nat)
    (hq : s.connections = [])
    (hc : s.numActiveConnections < s.maxNumConnections) :
    getP0 s (.err e) = .ret none (some (.makeConnection e)) s ∧
    getGo s (.err e) = .ret none (some (.makeConnection e)) s := by
  have hng : ¬ (s.connections.length = 0 ∧
      s.maxNumConnections ≤ s.numActiveConnections) :=
    fun hand => absurd hand.2 (not_le.mpr hc)
  constructor
  · unfold getP0
    rw [if_neg hng, hq]
  · unfold getGo
    rw [if_neg hng, hq]

theorem c8_factory_failure_wrapped_error_no_state_change_witness :
    (mkPool 5).connections = [] ∧
    (mkPool 5).numActiveConnections < (mkPool 5).maxNumConnections ∧
    (getP0 (mkPool 5) (.err 42) = .ret none (some (.makeConnection 42)) (mkPool 5) ∧
      getGo (mkPool 5) (.err 42) =
        .ret none (some (.makeConnection 42)) (mkPool 5)) :=
  ⟨rfl, by decide,
    c8_factory_failure_wrapped_error_no_state_change (mkPool 5) 42 rfl (by decide)⟩

/-- Claim C9: neither iteration's `Get` ever returns a nil connection
together with a nil error: a nil handle taken from the idle list or
produced by a successful factory call becomes an `ErrNilConnection`
error instead. -/
theorem c9_get_never_returns_nil_with_nil_error (s s' : PoolState)
    (f : FactoryOutcome) (conn : GoConn) :
    (getP0 s f = .ret conn none s' → conn ≠ none) ∧
    (getGo s f = .ret conn none s' → conn ≠ none) := by
  constructor
  · intro h
    unfold getP0 at h
    split at h
    · exact GetResult.noConfusion h
    · split at h
      next front rest heq =>
        split at h
        · obtain ⟨h1, h2, h3⟩ := GetResult.ret.injEq .. ▸ h
          exact Option.noConfusion h2
        · obtain ⟨h1, h2, h3⟩ := GetResult.ret.injEq .. ▸ h
          subst h1
          exact fun hn => Option.noConfusion hn
      next heq =>
        split at h
        · obtain ⟨h1, h2, h3⟩ := GetResult.ret.injEq .. ▸ h
          exact Option.noConfusion h2
        · obtain ⟨h1, h2, h3⟩ := GetResult.ret.injEq .. ▸ h
          exact Option.noConfusion h2
        · obtain ⟨h1, h2, h3⟩ := GetResult.ret.injEq .. ▸ h
          subst h1
          exact fun hn => Option.noConfusion hn
  · intro h
    unfold getGo at h
    split at h
    · exact GetResult.noConfusion h
    · split at h
      next front rest heq =>
        split at h
        · obtain ⟨h1, h2, h3⟩ := GetResult.ret.injEq .. ▸ h
          exact Option.noConfusion h2
        · obtain ⟨h1, h2, h3⟩ := GetResult.ret.injEq .. ▸ h
          subst h1
          exact fun hn => Option.noConfusion hn
      next heq =>
        split at h
        · obtain ⟨h1, h2, h3⟩ := GetResult.ret.injEq .. ▸ h
          exact Option.noConfusion h2
        · obtain ⟨h1, h2, h3⟩ := GetResult.ret.injEq .. ▸ h
          exact Option.noConfusion h2
        · obtain ⟨h1, h2, h3⟩ := GetResult.ret.injEq .. ▸ h
          subst h1
          exact fun hn => Option.noConfusion hn

theorem c9_get_never_returns_nil_with_nil_error_witness :
    getP0 (mkPool 5) (.ok (some 0)) =
      .ret (some 0) none
        { maxNumConnections := 5, numActiveConnections := 1, connections := [] } ∧
    (some 0 : GoConn) ≠ none :=
  ⟨by decide,
    (c9_get_never_returns_nil_with_nil_error (mkPool 5)
        { maxNumConnections := 5, numActiveConnections := 1, connections := [] }
        (.ok (some 0)) (some 0)).1 (by decide)⟩

/-- Claim C10: `Put` with a non-nil connection and a non-nil usage error
decrements the live counter unconditionally (no positivity check and no
check that the connection came from this pool) in both iterations, and
the idle list is untouched.  Consequently, on a pool with capacity 1,
releasing-with-error a connection the pool never created drives the
counter to `-1`, after which two consecutive `Get` calls each invoke the
factory — two connections created in total, more than the capacity
ceiling. -/
theorem c10_put_error_decrements_unconditionally :
    (∀ (s : PoolState) (c e : Nat),
        (putP0 s (some c) (some e)).numActiveConnections =
          s.numActiveConnections - 1 ∧
        (putGo s (some c) (some e)).numActiveConnections =
          s.numActiveConnections - 1 ∧
        (putP0 s (some c) (some e)).connections = s.connections ∧
        (putGo s (some c) (some e)).connections = s.connections) ∧
    putP0 (mkPool 1) (some 99) (some 5) =
      { maxNumConnections := 1, numActiveConnections := -1, connections := [] } ∧
    getP0 { maxNumConnections := 1, numActiveConnections := -1, connections := [] }
        (.ok (some 0)) =
      .ret (some 0) none
        { maxNumConnections := 1, numActiveConnections := 0, connections := [] } ∧
    getP0 { maxNumConnections := 1, numActiveConnections := 0, connections := [] }
        (.ok (some 1)) =
      .ret (some 1) none
        { maxNumConnections := 1, numActiveConnections := 1,
          connections := [] } := by
  refine ⟨fun s c e => ⟨rfl, rfl, rfl, rfl⟩, by decide, by decide, by decide⟩

end ConnectionPool
